import Mathlib

/-!
Shallow embedding of `src/index.js` (StrictModelPlugin): the `restrictSelect`
pre-hook that validates filter keys against the model's schema paths and
normalizes the projection (`query._fields`) to a schema-safe inclusion map.

JavaScript objects are embedded as association lists preserving key insertion
order; JS property read `obj[k]` is `List.lookup`, and property write
`obj[k] = v` is `objSet` (update in place if the key exists, else append,
matching JS object semantics).  Throwing is embedded as `Except.error`; since
a JS exception unwinds without rolling back mutations, an error carries the
query state as it stood at the throw point.
-/

deriving instance DecidableEq for Except

/-- The two error kinds thrown by `restrictSelect`:
`Attempting to query on a field that is not listed in Mongoose model: <field>`
(the filter error carries the offending field name) and
`Attempting to project on a field that is not listed in Mongoose model`. -/
inductive Err where
  | UnknownFilterField (field : String)
  | UnknownSelectionField
deriving DecidableEq, Repr

/-- The slice of a Mongoose query object that `restrictSelect` touches:
`query.getQuery()` returns the filter condition object (keys are field names,
values are predicate values, embedded as strings since the code never inspects
them), and `query._fields` is the projection object mapping field names to
`1` (include) or `0` (exclude). -/
structure Query where
  conditions : List (String × String)
  _fields : List (String × Nat)
deriving DecidableEq, Repr

/-- The plugin options: `allowNonModelQueryParameters` and
`allowNonModelSelectionParameters`, both coerced to booleans. -/
structure Config where
  allowNonModelQueryParameters : Bool
  allowNonModelSelectionParameters : Bool
deriving DecidableEq, Repr

/-- JS object property write `obj[k] = v`: overwrite in place if `k` is
already a key, otherwise append in insertion order. -/
def objSet : List (String × Nat) → String → Nat → List (String × Nat)
  | [], k, v => [(k, v)]
  | (k1, v1) :: rest, k, v =>
      if k1 = k then (k, v) :: rest else (k1, v1) :: objSet rest k v

/-- Modelled from the spec: the external `selectFields` convenience setter
(Mongoose `Query#select`, called by the code as
`query.select(paths.join(' '))`), which replaces the projection with an
inclusion entry for each given field name. -/
def Query.select (query : Query) (names : List String) : Query :=
  { query with _fields := names.map (fun n => (n, 1)) }

/-- The loop of lines 50-56: for each key of the filter condition object, in
order, throw `UnknownFilterField` as soon as one is not among the schema
paths (`paths.indexOf(queryField) === -1`). -/
def filterLoop (paths : List String) : List String → Except Err Unit
  | [] => Except.ok ()
  | queryField :: rest =>
      if queryField ∈ paths then filterLoop paths rest
      else Except.error (Err.UnknownFilterField queryField)

/-- Lines 45-57: the filter-validation step, run only when
`allowNonModelQueryParameters` is unset. -/
def filterStep (cfg : Config) (paths : List String) (query : Query) :
    Except Err Unit :=
  if cfg.allowNonModelQueryParameters = false then
    filterLoop paths (query.conditions.map Prod.fst)
  else Except.ok ()

/-- The loop of lines 79-88 (inclusion projection): for each requested field,
add it to `newSelectQuery` with marker `1` if it is a schema path; otherwise
throw `UnknownSelectionField` unless `allowNonModelSelectionParameters` is
set, in which case the field is silently dropped. -/
def includeLoop (paths : List String) (allowNonModelSelectionParameters : Bool) :
    List String → List (String × Nat) → Except Err (List (String × Nat))
  | [], newSelectQuery => Except.ok newSelectQuery
  | projField :: rest, newSelectQuery =>
      if projField ∈ paths then
        includeLoop paths allowNonModelSelectionParameters rest
          (objSet newSelectQuery projField 1)
      else if allowNonModelSelectionParameters = false then
        Except.error Err.UnknownSelectionField
      else
        includeLoop paths allowNonModelSelectionParameters rest newSelectQuery

/-- The loop of lines 97-104 (exclusion projection): every schema path whose
entry in the projection object is not `0` (`projectionFieldMap[path] !== 0`,
so also every path absent from the projection) is added to `newSelectQuery`
with marker `1`. -/
def excludeLoop (projectionFieldMap : List (String × Nat)) :
    List String → List (String × Nat) → List (String × Nat)
  | [], newSelectQuery => newSelectQuery
  | path :: rest, newSelectQuery =>
      if projectionFieldMap.lookup path ≠ some 0 then
        excludeLoop projectionFieldMap rest (objSet newSelectQuery path 1)
      else
        excludeLoop projectionFieldMap rest newSelectQuery

/-- Lines 66-112: the projection-normalization step.  `projectionFields` is
`Object.keys(query._fields)`.  Empty projection: select every schema path.
First key mapped to `1`: inclusion projection, run `includeLoop` and replace
`query._fields` with its result.  Otherwise: exclusion projection, build
`newSelectQuery` from the schema paths, and throw `UnknownSelectionField`
when `Object.keys(newSelectQuery).length !== paths.length -
projectionFields.length` (JS number subtraction, hence `Int`) unless
`allowNonModelSelectionParameters` is set; then replace `query._fields`. -/
def projStep (cfg : Config) (paths : List String) (query : Query) :
    Except (Err × Query) Query :=
  let projectionFieldMap := query._fields
  let projectionFields := projectionFieldMap.map Prod.fst
  match projectionFields with
  | [] => Except.ok (query.select paths)
  | f0 :: _ =>
      if projectionFieldMap.lookup f0 = some 1 then
        match includeLoop paths cfg.allowNonModelSelectionParameters
            projectionFields [] with
        | Except.error e => Except.error (e, query)
        | Except.ok newSelectQuery =>
            Except.ok { query with _fields := newSelectQuery }
      else
        let newSelectQuery := excludeLoop projectionFieldMap paths []
        if (newSelectQuery.length : Int) ≠
            (paths.length : Int) - (projectionFields.length : Int)
            ∧ cfg.allowNonModelSelectionParameters = false then
          Except.error (Err.UnknownSelectionField, query)
        else
          Except.ok { query with _fields := newSelectQuery }

/-- Lines 38-113: the whole `restrictSelect` pre-hook.  On success the
returned query carries the replacement projection; on error the carried
query is the state at the throw point. -/
def restrictSelect (cfg : Config) (paths : List String) (query : Query) :
    Except (Err × Query) Query :=
  match filterStep cfg paths query with
  | Except.error e => Except.error (e, query)
  | Except.ok _ => projStep cfg paths query

/-! ### Supporting lemmas about the loops -/

theorem objSet_of_not_mem (o : List (String × Nat)) (k : String) (v : Nat)
    (h : k ∉ o.map Prod.fst) : objSet o k v = o ++ [(k, v)] := by
  induction o with
  | nil => rfl
  | cons hd tl ih =>
      simp only [List.map_cons, List.mem_cons, not_or] at h
      simp only [objSet, if_neg (Ne.symm h.1)]
      rw [ih h.2]
      rfl

theorem mem_objSet (o : List (String × Nat)) (k : String) (v : Nat) :
    ∀ kv ∈ objSet o k v, kv ∈ o ∨ kv = (k, v) := by
  induction o with
  | nil => simp [objSet]
  | cons hd tl ih =>
      intro kv hkv
      by_cases hk : hd.1 = k
      · rcases hd with ⟨k1, v1⟩
        simp only [objSet, if_pos hk, List.mem_cons] at hkv
        rcases hkv with h | h
        · right; exact h
        · left; exact List.mem_cons_of_mem _ h
      · rcases hd with ⟨k1, v1⟩
        simp only [objSet, if_neg hk, List.mem_cons] at hkv
        rcases hkv with h | h
        · left; exact h ▸ List.mem_cons_self _ _
        · rcases ih kv h with h2 | h2
          · left; exact List.mem_cons_of_mem _ h2
          · right; exact h2

theorem filterLoop_ok_iff (paths keys : List String) :
    filterLoop paths keys = Except.ok () ↔ ∀ k ∈ keys, k ∈ paths := by
  induction keys with
  | nil => simp [filterLoop]
  | cons hd tl ih =>
      by_cases h : hd ∈ paths
      · simp [filterLoop, if_pos h, ih, h]
      · simp [filterLoop, if_neg h, h]

theorem filterLoop_error_of (paths keys : List String)
    (h : ∃ k ∈ keys, k ∉ paths) :
    ∃ f, f ∈ keys ∧ f ∉ paths ∧
      filterLoop paths keys = Except.error (Err.UnknownFilterField f) := by
  induction keys with
  | nil => simp at h
  | cons hd tl ih =>
      by_cases hhd : hd ∈ paths
      · rcases h with ⟨k, hk, hknot⟩
        rcases List.mem_cons.mp hk with rfl | hk
        · exact absurd hhd hknot
        · rcases ih ⟨k, hk, hknot⟩ with ⟨f, hf1, hf2, hf3⟩
          exact ⟨f, List.mem_cons_of_mem _ hf1, hf2, by
            simpa [filterLoop, if_pos hhd] using hf3⟩
      · exact ⟨hd, List.mem_cons_self _ _, hhd, by simp [filterLoop, if_neg hhd]⟩

theorem filterLoop_error_shape (paths keys : List String) (e : Err)
    (h : filterLoop paths keys = Except.error e) :
    ∃ f, f ∈ keys ∧ f ∉ paths ∧ e = Err.UnknownFilterField f := by
  induction keys with
  | nil => simp [filterLoop] at h
  | cons hd tl ih =>
      by_cases hhd : hd ∈ paths
      · rw [filterLoop, if_pos hhd] at h
        rcases ih h with ⟨f, hf1, hf2, hf3⟩
        exact ⟨f, List.mem_cons_of_mem _ hf1, hf2, hf3⟩
      · rw [filterLoop, if_neg hhd] at h
        exact ⟨hd, List.mem_cons_self _ _, hhd, (Except.error.inj h).symm⟩

theorem filterStep_ok (cfg : Config) (paths : List String) (query : Query)
    (h : cfg.allowNonModelQueryParameters = true ∨
      ∀ k ∈ query.conditions.map Prod.fst, k ∈ paths) :
    filterStep cfg paths query = Except.ok () := by
  rcases h with h | h
  · simp [filterStep, h]
  · by_cases hflag : cfg.allowNonModelQueryParameters = false
    · rw [filterStep, if_pos hflag]
      exact (filterLoop_ok_iff _ _).mpr h
    · rw [filterStep, if_neg hflag]

theorem includeLoop_error_shape (paths : List String) (b : Bool)
    (keys : List String) (acc : List (String × Nat)) (e : Err)
    (h : includeLoop paths b keys acc = Except.error e) :
    e = Err.UnknownSelectionField := by
  induction keys generalizing acc with
  | nil => simp [includeLoop] at h
  | cons hd tl ih =>
      by_cases hhd : hd ∈ paths
      · rw [includeLoop, if_pos hhd] at h
        exact ih _ h
      · rw [includeLoop, if_neg hhd] at h
        by_cases hb : b = false
        · rw [if_pos hb] at h
          exact (Except.error.inj h).symm
        · rw [if_neg hb] at h
          exact ih _ h

theorem includeLoop_ok_of (paths : List String) (b : Bool)
    (keys : List String) (acc : List (String × Nat))
    (h : b = true ∨ ∀ k ∈ keys, k ∈ paths) (hnd : keys.Nodup)
    (hdisj : ∀ k ∈ keys, k ∉ acc.map Prod.fst) :
    includeLoop paths b keys acc =
      Except.ok (acc ++
        (keys.filter (fun k => decide (k ∈ paths))).map (fun k => (k, 1))) := by
  induction keys generalizing acc with
  | nil => simp [includeLoop]
  | cons hd tl ih =>
      rcases List.nodup_cons.mp hnd with ⟨hhdtl, hndtl⟩
      by_cases hhd : hd ∈ paths
      · rw [includeLoop, if_pos hhd]
        rw [objSet_of_not_mem _ _ _ (hdisj hd (List.mem_cons_self _ _))]
        have hdisj2 : ∀ k ∈ tl, k ∉ (acc ++ [(hd, 1)]).map Prod.fst := by
          intro k hk
          simp only [List.map_append, List.mem_append, List.map_cons,
            List.map_nil, List.mem_singleton, not_or]
          exact ⟨hdisj k (List.mem_cons_of_mem _ hk),
            fun hkhd => hhdtl (hkhd ▸ hk)⟩
        have h2 : b = true ∨ ∀ k ∈ tl, k ∈ paths := by
          rcases h with h | h
          · exact Or.inl h
          · exact Or.inr fun k hk => h k (List.mem_cons_of_mem _ hk)
        rw [ih _ h2 hndtl hdisj2]
        simp [hhd, List.append_assoc]
      · have hb : b = true := by
          rcases h with h | h
          · exact h
          · exact absurd (h hd (List.mem_cons_self _ _)) hhd
        rw [includeLoop, if_neg hhd, hb]
        simp only [Bool.true_eq_false, if_false]
        have h2 : b = true ∨ ∀ k ∈ tl, k ∈ paths := Or.inl hb
        rw [hb] at ih
        rw [ih _ (Or.inl rfl) hndtl
          (fun k hk => hdisj k (List.mem_cons_of_mem _ hk))]
        simp [hhd]

theorem includeLoop_error_of (paths : List String) (keys : List String)
    (acc : List (String × Nat)) (h : ∃ k ∈ keys, k ∉ paths) :
    includeLoop paths false keys acc = Except.error Err.UnknownSelectionField := by
  induction keys generalizing acc with
  | nil => simp at h
  | cons hd tl ih =>
      by_cases hhd : hd ∈ paths
      · rcases h with ⟨k, hk, hknot⟩
        rcases List.mem_cons.mp hk with rfl | hk
        · exact absurd hhd hknot
        · rw [includeLoop, if_pos hhd]
          exact ih _ ⟨k, hk, hknot⟩
      · rw [includeLoop, if_neg hhd]
        simp

theorem includeLoop_ok_forall (paths : List String) (b : Bool)
    (keys : List String) (acc res : List (String × Nat))
    (h : includeLoop paths b keys acc = Except.ok res)
    (hacc : ∀ kv ∈ acc, kv.1 ∈ paths ∧ kv.2 = 1) :
    ∀ kv ∈ res, kv.1 ∈ paths ∧ kv.2 = 1 := by
  induction keys generalizing acc with
  | nil =>
      simp only [includeLoop, Except.ok.injEq] at h
      exact h ▸ hacc
  | cons hd tl ih =>
      by_cases hhd : hd ∈ paths
      · rw [includeLoop, if_pos hhd] at h
        refine ih _ h ?_
        intro kv hkv
        rcases mem_objSet _ _ _ kv hkv with h2 | h2
        · exact hacc kv h2
        · rw [h2]; exact ⟨hhd, rfl⟩
      · rw [includeLoop, if_neg hhd] at h
        by_cases hb : b = false
        · rw [if_pos hb] at h; exact absurd h (by simp)
        · rw [if_neg hb] at h
          exact ih _ h hacc

theorem excludeLoop_eq (pfm : List (String × Nat)) (l : List String)
    (acc : List (String × Nat)) (hnd : l.Nodup)
    (hdisj : ∀ k ∈ l, k ∉ acc.map Prod.fst) :
    excludeLoop pfm l acc =
      acc ++ (l.filter (fun p => decide (¬ pfm.lookup p = some 0))).map
        (fun p => (p, 1)) := by
  induction l generalizing acc with
  | nil => simp [excludeLoop]
  | cons hd tl ih =>
      rcases List.nodup_cons.mp hnd with ⟨hhdtl, hndtl⟩
      by_cases hz : pfm.lookup hd = some 0
      · rw [excludeLoop, if_neg (by simpa using hz)]
        rw [ih _ hndtl (fun k hk => hdisj k (List.mem_cons_of_mem _ hk))]
        simp [hz]
      · rw [excludeLoop, if_pos (by simpa using hz)]
        rw [objSet_of_not_mem _ _ _ (hdisj hd (List.mem_cons_self _ _))]
        have hdisj2 : ∀ k ∈ tl, k ∉ (acc ++ [(hd, 1)]).map Prod.fst := by
          intro k hk
          simp only [List.map_append, List.mem_append, List.map_cons,
            List.map_nil, List.mem_singleton, not_or]
          exact ⟨hdisj k (List.mem_cons_of_mem _ hk),
            fun hkhd => hhdtl (hkhd ▸ hk)⟩
        rw [ih _ hndtl hdisj2]
        simp [hz, List.append_assoc]

theorem excludeLoop_forall (pfm : List (String × Nat)) (l : List String)
    (acc : List (String × Nat)) :
    ∀ kv ∈ excludeLoop pfm l acc, kv ∈ acc ∨ (kv.1 ∈ l ∧ kv.2 = 1) := by
  induction l generalizing acc with
  | nil => simp [excludeLoop]
  | cons hd tl ih =>
      intro kv hkv
      by_cases hz : pfm.lookup hd = some 0
      · rw [excludeLoop, if_neg (by simpa using hz)] at hkv
        rcases ih _ kv hkv with h | h
        · exact Or.inl h
        · exact Or.inr ⟨List.mem_cons_of_mem _ h.1, h.2⟩
      · rw [excludeLoop, if_pos (by simpa using hz)] at hkv
        rcases ih _ kv hkv with h | h
        · rcases mem_objSet _ _ _ kv h with h2 | h2
          · exact Or.inl h2
          · exact Or.inr ⟨h2 ▸ List.mem_cons_self _ _, h2 ▸ rfl⟩
        · exact Or.inr ⟨List.mem_cons_of_mem _ h.1, h.2⟩

theorem lookup_cons_self (k : String) (v : Nat) (rest : List (String × Nat)) :
    ((k, v) :: rest).lookup k = some v := by
  simp [List.lookup]

theorem lookup_uniform_zero (pfm : List (String × Nat)) (p : String)
    (h : ∀ kv ∈ pfm, kv.2 = 0) :
    pfm.lookup p = some 0 ↔ p ∈ pfm.map Prod.fst := by
  induction pfm with
  | nil => simp [List.lookup]
  | cons hd tl ih =>
      rcases hd with ⟨k1, v1⟩
      have hv1 : v1 = 0 := h (k1, v1) (List.mem_cons_self _ _)
      by_cases hk : p = k1
      · subst hk
        simp [List.lookup, hv1]
      · have : (p == k1) = false := beq_false_of_ne hk
        simp only [List.lookup, this, List.map_cons, List.mem_cons]
        rw [ih (fun kv hkv => h kv (List.mem_cons_of_mem _ hkv))]
        simp [hk]

theorem map_fst_map_one (pfm : List (String × Nat))
    (h : ∀ kv ∈ pfm, kv.2 = 1) :
    (pfm.map Prod.fst).map (fun k => (k, (1 : Nat))) = pfm := by
  induction pfm with
  | nil => rfl
  | cons hd tl ih =>
      rcases hd with ⟨k1, v1⟩
      have hv1 : v1 = 1 := h (k1, v1) (List.mem_cons_self _ _)
      simp only [List.map_cons, List.cons.injEq]
      exact ⟨by rw [hv1], ih (fun kv hkv => h kv (List.mem_cons_of_mem _ hkv))⟩

/-! ### Counting lemmas for the exclusion-mode consistency check -/

theorem length_filter_add_length_filter_not (l : List String) (p : String → Bool) :
    (l.filter p).length + (l.filter (fun a => !(p a))).length = l.length := by
  induction l with
  | nil => rfl
  | cons hd tl ih =>
      by_cases h : p hd
      · simp [List.filter_cons, h, ← ih]
        omega
      · simp only [List.filter_cons, h, Bool.not_false, if_neg]
        simp [h, ← ih]
        omega

theorem length_filter_mem_comm (l1 l2 : List String)
    (h1 : l1.Nodup) (h2 : l2.Nodup) :
    (l1.filter (fun a => decide (a ∈ l2))).length =
      (l2.filter (fun a => decide (a ∈ l1))).length := by
  refine ((List.perm_ext_iff_of_nodup (h1.filter _) (h2.filter _)).mpr ?_).length_eq
  intro a
  simp only [List.mem_filter, decide_eq_true_eq]
  exact and_comm

theorem length_filter_eq_length_iff (l : List String) (p : String → Bool) :
    (l.filter p).length = l.length ↔ ∀ a ∈ l, p a = true := by
  induction l with
  | nil => simp
  | cons hd tl ih =>
      by_cases h : p hd
      · simp [List.filter_cons, h, ih]
      · simp only [List.filter_cons, h, if_neg, List.length_cons]
        constructor
        · intro hlen
          exact absurd hlen
            (by have := List.length_filter_le p tl; simp [h]; omega)
        · intro hall
          exact absurd (hall hd (List.mem_cons_self _ _)) (by simp [h])

theorem exclusion_mismatch_iff (paths keys : List String)
    (hp : paths.Nodup) (hk : keys.Nodup) :
    (((paths.filter (fun a => !(decide (a ∈ keys)))).length : Int) ≠
      (paths.length : Int) - (keys.length : Int)) ↔ ∃ k ∈ keys, k ∉ paths := by
  have hpart := length_filter_add_length_filter_not paths
    (fun a => decide (a ∈ keys))
  have hcomm := length_filter_mem_comm paths keys hp hk
  have hiff : (∃ k ∈ keys, k ∉ paths) ↔
      ¬ ((keys.filter (fun a => decide (a ∈ paths))).length = keys.length) := by
    rw [length_filter_eq_length_iff]
    push_neg
    simp
  rw [hiff]
  constructor
  · intro hne heq
    exact hne (by omega)
  · intro hne heq
    exact hne (by omega)

/-! ### Branch reduction lemmas for `projStep` -/

theorem projStep_empty (cfg : Config) (paths : List String) (query : Query)
    (h : query._fields = []) :
    projStep cfg paths query = Except.ok (query.select paths) := by
  simp [projStep, h]

theorem projStep_include_eq (cfg : Config) (paths : List String) (query : Query)
    (f0 : String) (rest : List (String × Nat))
    (h : query._fields = (f0, 1) :: rest) :
    projStep cfg paths query =
      match includeLoop paths cfg.allowNonModelSelectionParameters
          (f0 :: rest.map Prod.fst) [] with
      | Except.error e => Except.error (e, query)
      | Except.ok newSelectQuery =>
          Except.ok { query with _fields := newSelectQuery } := by
  simp [projStep, h, lookup_cons_self]

theorem projStep_exclude_eq (cfg : Config) (paths : List String) (query : Query)
    (f0 : String) (v0 : Nat) (rest : List (String × Nat))
    (h : query._fields = (f0, v0) :: rest) (hv : v0 ≠ 1) :
    projStep cfg paths query =
      if ((excludeLoop ((f0, v0) :: rest) paths []).length : Int) ≠
          (paths.length : Int) - ((((f0, v0) :: rest).map Prod.fst).length : Int)
          ∧ cfg.allowNonModelSelectionParameters = false then
        Except.error (Err.UnknownSelectionField, query)
      else
        Except.ok { query with _fields := excludeLoop ((f0, v0) :: rest) paths [] } := by
  simp [projStep, h, hv]

theorem projStep_error_carrier (cfg : Config) (paths : List String)
    (query q2 : Query) (e : Err)
    (h : projStep cfg paths query = Except.error (e, q2)) :
    q2 = query ∧ e = Err.UnknownSelectionField := by
  rcases hq : query._fields with _ | ⟨⟨f0, v0⟩, rest⟩
  · rw [projStep_empty cfg paths query hq] at h
    exact absurd h (by simp)
  · by_cases hv : v0 = 1
    · subst hv
      rw [projStep_include_eq cfg paths query f0 rest hq] at h
      rcases hinc : includeLoop paths cfg.allowNonModelSelectionParameters
          (f0 :: rest.map Prod.fst) [] with e2 | ns
      · rw [hinc] at h
        simp only [Except.error.injEq, Prod.mk.injEq] at h
        exact ⟨h.2.symm, h.1 ▸ includeLoop_error_shape _ _ _ _ _ hinc⟩
      · rw [hinc] at h
        exact absurd h (by simp)
    · rw [projStep_exclude_eq cfg paths query f0 v0 rest hq hv] at h
      by_cases hcond : ((excludeLoop ((f0, v0) :: rest) paths []).length : Int) ≠
          (paths.length : Int) - ((((f0, v0) :: rest).map Prod.fst).length : Int)
          ∧ cfg.allowNonModelSelectionParameters = false
      · rw [if_pos hcond] at h
        simp only [Except.error.injEq, Prod.mk.injEq] at h
        exact ⟨h.2.symm, h.1.symm⟩
      · rw [if_neg hcond] at h
        exact absurd h (by simp)

theorem restrictSelect_error_carrier (cfg : Config) (paths : List String)
    (query q2 : Query) (e : Err)
    (h : restrictSelect cfg paths query = Except.error (e, q2)) :
    q2 = query := by
  rcases hf : filterStep cfg paths query with e2 | u
  · rw [restrictSelect, hf] at h
    simp only [Except.error.injEq, Prod.mk.injEq] at h
    exact h.2.symm
  · rw [restrictSelect, hf] at h
    exact (projStep_error_carrier cfg paths query q2 e h).1

theorem restrictSelect_filter_ok_no_filter_error (cfg : Config)
    (paths : List String) (query : Query)
    (hf : filterStep cfg paths query = Except.ok ()) (f : String) (q2 : Query) :
    restrictSelect cfg paths query ≠ Except.error (Err.UnknownFilterField f, q2) := by
  intro h
  rw [restrictSelect, hf] at h
  have := (projStep_error_carrier cfg paths query q2 _ h).2
  simp at this

theorem projStep_ok_forall (cfg : Config) (paths : List String)
    (query q2 : Query) (h : projStep cfg paths query = Except.ok q2) :
    ∀ kv ∈ q2._fields, kv.1 ∈ paths ∧ kv.2 = 1 := by
  rcases hq : query._fields with _ | ⟨⟨f0, v0⟩, rest⟩
  · rw [projStep_empty cfg paths query hq] at h
    rw [← Except.ok.inj h]
    intro kv hkv
    simp only [Query.select, List.mem_map] at hkv
    rcases hkv with ⟨n, hn, rfl⟩
    exact ⟨hn, rfl⟩
  · by_cases hv : v0 = 1
    · subst hv
      rw [projStep_include_eq cfg paths query f0 rest hq] at h
      rcases hinc : includeLoop paths cfg.allowNonModelSelectionParameters
          (f0 :: rest.map Prod.fst) [] with e2 | ns
      · rw [hinc] at h
        exact absurd h (by simp)
      · rw [hinc] at h
        rw [← Except.ok.inj h]
        exact includeLoop_ok_forall paths _ _ [] ns hinc (by simp)
    · rw [projStep_exclude_eq cfg paths query f0 v0 rest hq hv] at h
      by_cases hcond : ((excludeLoop ((f0, v0) :: rest) paths []).length : Int) ≠
          (paths.length : Int) - ((((f0, v0) :: rest).map Prod.fst).length : Int)
          ∧ cfg.allowNonModelSelectionParameters = false
      · rw [if_pos hcond] at h
        exact absurd h (by simp)
      · rw [if_neg hcond] at h
        rw [← Except.ok.inj h]
        intro kv hkv
        rcases excludeLoop_forall ((f0, v0) :: rest) paths [] kv hkv with h2 | h2
        · exact absurd h2 (List.not_mem_nil kv)
        · exact h2

/-! ### The claims -/

/-- Claim C1: whenever `restrictSelect` returns successfully, the projection
it hands back has been replaced with an inclusion-mode map (every marker is
`1`) every key of which is a schema path. -/
theorem claim_c1_success_is_schema_inclusion (cfg : Config)
    (paths : List String) (query q2 : Query)
    (h : restrictSelect cfg paths query = Except.ok q2) :
    ∀ kv ∈ q2._fields, kv.1 ∈ paths ∧ kv.2 = 1 := by
  rcases hf : filterStep cfg paths query with e | u
  · rw [restrictSelect, hf] at h
    exact absurd h (by simp)
  · rw [restrictSelect, hf] at h
    exact projStep_ok_forall cfg paths query q2 h

theorem claim_c1_witness :
    ("name", (1 : Nat)).1 ∈ ["name", "email"] ∧ ("name", (1 : Nat)).2 = 1 :=
  claim_c1_success_is_schema_inclusion (Config.mk false false) ["name", "email"]
    (Query.mk [("name", "x")] [("name", 1)]) (Query.mk [("name", "x")] [("name", 1)])
    (by decide) ("name", 1) (by decide)

/-- Claim C2: when the projection is empty and the filter passes validation
(or filter validation is disabled), the final projection includes every
schema path, whatever the filter contains. -/
theorem claim_c2_empty_projection_selects_all (cfg : Config)
    (paths : List String) (query : Query) (hP : query._fields = [])
    (hf : cfg.allowNonModelQueryParameters = true ∨
      ∀ k ∈ query.conditions.map Prod.fst, k ∈ paths) :
    restrictSelect cfg paths query =
      Except.ok { query with _fields := paths.map (fun f => (f, 1)) } := by
  have hfs := filterStep_ok cfg paths query hf
  rw [restrictSelect, hfs, projStep_empty cfg paths query hP]
  rfl

theorem claim_c2_witness :
    restrictSelect (Config.mk false false) ["name", "email", "age"]
        (Query.mk [("name", "x")] []) =
      Except.ok (Query.mk [("name", "x")]
        [("name", 1), ("email", 1), ("age", 1)]) :=
  claim_c2_empty_projection_selects_all (Config.mk false false)
    ["name", "email", "age"] (Query.mk [("name", "x")] []) rfl
    (Or.inr (by decide))

/-- Claim C9: whenever `restrictSelect` throws either error, the query state
carried at the throw point still holds the original projection: the
replacement map is assigned only after every check of the taken branch has
passed. -/
theorem claim_c9_error_leaves_projection_untouched (cfg : Config)
    (paths : List String) (query q2 : Query) (e : Err)
    (h : restrictSelect cfg paths query = Except.error (e, q2)) :
    q2._fields = query._fields := by
  rw [restrictSelect_error_carrier cfg paths query q2 e h]

theorem claim_c9_witness :
    (Query.mk [] [("ssn", 1)])._fields = (Query.mk [] [("ssn", 1)])._fields :=
  claim_c9_error_leaves_projection_untouched (Config.mk false false) ["name"]
    (Query.mk [] [("ssn", 1)]) (Query.mk [] [("ssn", 1)])
    Err.UnknownSelectionField (by decide)

theorem restrictSelect_filter_error_of (cfg : Config)
    (paths : List String) (query : Query)
    (hflag : cfg.allowNonModelQueryParameters = false)
    (hbad : ∃ k ∈ query.conditions.map Prod.fst, k ∉ paths) :
    ∃ f, f ∈ query.conditions.map Prod.fst ∧ f ∉ paths ∧
      restrictSelect cfg paths query =
        Except.error (Err.UnknownFilterField f, query) := by
  rcases filterLoop_error_of paths (query.conditions.map Prod.fst) hbad with
    ⟨f, hf1, hf2, hf3⟩
  refine ⟨f, hf1, hf2, ?_⟩
  have hfs : filterStep cfg paths query =
      Except.error (Err.UnknownFilterField f) := by
    rw [filterStep, if_pos hflag]
    exact hf3
  rw [restrictSelect, hfs]

/-- Claim C8: filter validation runs first: with
`allowNonModelQueryParameters` unset and some filter key outside the schema
paths, `restrictSelect` throws `UnknownFilterField` (never the selection
error) with the query — in particular its projection — untouched, whatever
the projection contains. -/
theorem claim_c8_filter_error_before_projection (cfg : Config)
    (paths : List String) (query : Query)
    (hflag : cfg.allowNonModelQueryParameters = false)
    (hbad : ∃ k ∈ query.conditions.map Prod.fst, k ∉ paths) :
    ∃ f, f ∈ query.conditions.map Prod.fst ∧ f ∉ paths ∧
      restrictSelect cfg paths query =
        Except.error (Err.UnknownFilterField f, query) :=
  restrictSelect_filter_error_of cfg paths query hflag hbad

theorem claim_c8_witness :
    ∃ f, f ∈ (Query.mk [("ssn", "x")] [("bad", 1)]).conditions.map Prod.fst ∧
      f ∉ ["name", "email", "age"] ∧
      restrictSelect (Config.mk false false) ["name", "email", "age"]
          (Query.mk [("ssn", "x")] [("bad", 1)]) =
        Except.error (Err.UnknownFilterField f,
          Query.mk [("ssn", "x")] [("bad", 1)]) :=
  claim_c8_filter_error_before_projection (Config.mk false false)
    ["name", "email", "age"] (Query.mk [("ssn", "x")] [("bad", 1)]) rfl
    ⟨"ssn", by decide, by decide⟩

/-- Claim C3: with `allowNonModelQueryParameters` unset, `restrictSelect`
throws `UnknownFilterField` exactly when some filter key is not a schema
path; with the flag set, filter validation is skipped and no
`UnknownFilterField` is ever thrown. -/
theorem claim_c3_filter_error_iff (cfg : Config) (paths : List String)
    (query : Query) :
    (cfg.allowNonModelQueryParameters = false →
      ((∃ f q2, restrictSelect cfg paths query =
          Except.error (Err.UnknownFilterField f, q2)) ↔
        ∃ k ∈ query.conditions.map Prod.fst, k ∉ paths))
    ∧ (cfg.allowNonModelQueryParameters = true →
      ∀ f q2, restrictSelect cfg paths query ≠
        Except.error (Err.UnknownFilterField f, q2)) := by
  constructor
  · intro hflag
    constructor
    · intro ⟨f, q2, h⟩
      by_contra hno
      push_neg at hno
      have hfs := filterStep_ok cfg paths query (Or.inr hno)
      exact restrictSelect_filter_ok_no_filter_error cfg paths query hfs f q2 h
    · intro hbad
      rcases restrictSelect_filter_error_of cfg paths query hflag
        hbad with ⟨f, _, _, h⟩
      exact ⟨f, query, h⟩
  · intro hflag f q2
    exact restrictSelect_filter_ok_no_filter_error cfg paths query
      (filterStep_ok cfg paths query (Or.inl hflag)) f q2

theorem claim_c3_witness :
    ∃ f q2, restrictSelect (Config.mk false false) ["name"]
        (Query.mk [("ssn", "x")] []) =
      Except.error (Err.UnknownFilterField f, q2) :=
  ((claim_c3_filter_error_iff (Config.mk false false) ["name"]
    (Query.mk [("ssn", "x")] [])).1 rfl).mpr ⟨"ssn", by decide, by decide⟩

/-- Claim C7: an inclusion projection that uses only schema paths is carried
into the final projection unchanged, with no error, whichever value
`allowNonModelSelectionParameters` has. -/
theorem claim_c7_known_inclusion_unchanged (cfg : Config)
    (paths : List String) (query : Query) (f0 : String)
    (rest : List (String × Nat))
    (hfields : query._fields = (f0, 1) :: rest)
    (huni : ∀ kv ∈ query._fields, kv.2 = 1)
    (hsub : ∀ k ∈ query._fields.map Prod.fst, k ∈ paths)
    (hnd : (query._fields.map Prod.fst).Nodup)
    (hf : cfg.allowNonModelQueryParameters = true ∨
      ∀ k ∈ query.conditions.map Prod.fst, k ∈ paths) :
    restrictSelect cfg paths query = Except.ok query := by
  have hfs := filterStep_ok cfg paths query hf
  have hinc := includeLoop_ok_of paths cfg.allowNonModelSelectionParameters
    (query._fields.map Prod.fst) [] (Or.inr hsub) hnd (by simp)
  rw [List.nil_append,
    List.filter_eq_self.mpr (fun a ha => by simpa using hsub a ha),
    map_fst_map_one query._fields huni] at hinc
  have hkeys : query._fields.map Prod.fst = f0 :: rest.map Prod.fst := by
    rw [hfields]; rfl
  rw [hkeys] at hinc
  have hres : projStep cfg paths query = Except.ok query := by
    rw [projStep_include_eq cfg paths query f0 rest hfields, hinc]
  rw [restrictSelect, hfs]
  exact hres

theorem claim_c7_witness :
    restrictSelect (Config.mk false false) ["name", "email", "age"]
        (Query.mk [] [("age", 1), ("name", 1)]) =
      Except.ok (Query.mk [] [("age", 1), ("name", 1)]) :=
  claim_c7_known_inclusion_unchanged (Config.mk false false)
    ["name", "email", "age"] (Query.mk [] [("age", 1), ("name", 1)]) "age"
    [("name", 1)] rfl (by decide) (by decide) (by decide) (Or.inr (by decide))

/-- Claim C4: an inclusion projection naming some field outside the schema
paths is, with `allowNonModelSelectionParameters` set, rewritten to exactly
its schema-path members (unknown fields silently dropped); with the flag
unset, `restrictSelect` throws `UnknownSelectionField`. -/
theorem claim_c4_unknown_inclusion_drop_or_error (cfg : Config)
    (paths : List String) (query : Query) (f0 : String)
    (rest : List (String × Nat))
    (hfields : query._fields = (f0, 1) :: rest)
    (hnd : (query._fields.map Prod.fst).Nodup)
    (hbad : ∃ k ∈ query._fields.map Prod.fst, k ∉ paths)
    (hf : cfg.allowNonModelQueryParameters = true ∨
      ∀ k ∈ query.conditions.map Prod.fst, k ∈ paths) :
    (cfg.allowNonModelSelectionParameters = true →
      restrictSelect cfg paths query =
        Except.ok (Query.mk query.conditions
          (((query._fields.map Prod.fst).filter
            (fun k => decide (k ∈ paths))).map (fun k => (k, 1)))))
    ∧ (cfg.allowNonModelSelectionParameters = false →
      restrictSelect cfg paths query =
        Except.error (Err.UnknownSelectionField, query)) := by
  have hfs := filterStep_ok cfg paths query hf
  have hkeys : query._fields.map Prod.fst = f0 :: rest.map Prod.fst := by
    rw [hfields]; rfl
  constructor
  · intro hflag
    have hinc := includeLoop_ok_of paths cfg.allowNonModelSelectionParameters
      (query._fields.map Prod.fst) [] (Or.inl hflag) hnd (by simp)
    rw [List.nil_append] at hinc
    rw [hkeys] at hinc
    have hres : projStep cfg paths query =
        Except.ok (Query.mk query.conditions
          (((query._fields.map Prod.fst).filter
            (fun k => decide (k ∈ paths))).map (fun k => (k, 1)))) := by
      rw [projStep_include_eq cfg paths query f0 rest hfields, hinc, hkeys]
    rw [restrictSelect, hfs]
    exact hres
  · intro hflag
    have hinc : includeLoop paths cfg.allowNonModelSelectionParameters
        (f0 :: rest.map Prod.fst) [] = Except.error Err.UnknownSelectionField := by
      rw [hflag]
      exact includeLoop_error_of paths _ [] (hkeys ▸ hbad)
    have hres : projStep cfg paths query =
        Except.error (Err.UnknownSelectionField, query) := by
      rw [projStep_include_eq cfg paths query f0 rest hfields, hinc]
    rw [restrictSelect, hfs]
    exact hres

theorem claim_c4_witness :
    restrictSelect (Config.mk false true) ["name", "email", "age"]
        (Query.mk [] [("name", 1), ("ssn", 1)]) =
      Except.ok (Query.mk [] [("name", 1)]) ∧
    restrictSelect (Config.mk false false) ["name", "email", "age"]
        (Query.mk [] [("name", 1), ("ssn", 1)]) =
      Except.error (Err.UnknownSelectionField,
        Query.mk [] [("name", 1), ("ssn", 1)]) :=
  ⟨(claim_c4_unknown_inclusion_drop_or_error (Config.mk false true)
      ["name", "email", "age"] (Query.mk [] [("name", 1), ("ssn", 1)]) "name"
      [("ssn", 1)] rfl (by decide) ⟨"ssn", by decide, by decide⟩
      (Or.inr (by decide))).1 rfl,
    (claim_c4_unknown_inclusion_drop_or_error (Config.mk false false)
      ["name", "email", "age"] (Query.mk [] [("name", 1), ("ssn", 1)]) "name"
      [("ssn", 1)] rfl (by decide) ⟨"ssn", by decide, by decide⟩
      (Or.inr (by decide))).2 rfl⟩

theorem includeLoop_all_unknown (paths : List String) (keys : List String)
    (acc : List (String × Nat)) (h : ∀ k ∈ keys, k ∉ paths) :
    includeLoop paths true keys acc = Except.ok acc := by
  induction keys with
  | nil => rfl
  | cons hd tl ih =>
      rw [includeLoop, if_neg (h hd (List.mem_cons_self _ _))]
      simp only [Bool.true_eq_false, if_false]
      exact ih (fun k hk => h k (List.mem_cons_of_mem _ hk))

/-- Claim C10: an inclusion projection made only of fields outside the
schema paths, under `allowNonModelSelectionParameters`, ends with the empty
map assigned as the operation's projection: the guard records no field
restriction at all rather than an all-schema-fields inclusion list. -/
theorem claim_c10_all_unknown_lenient_empty (cfg : Config)
    (paths : List String) (query : Query) (f0 : String)
    (rest : List (String × Nat))
    (hfields : query._fields = (f0, 1) :: rest)
    (hall : ∀ k ∈ query._fields.map Prod.fst, k ∉ paths)
    (hflag : cfg.allowNonModelSelectionParameters = true)
    (hf : cfg.allowNonModelQueryParameters = true ∨
      ∀ k ∈ query.conditions.map Prod.fst, k ∈ paths) :
    restrictSelect cfg paths query =
      Except.ok (Query.mk query.conditions []) := by
  have hfs := filterStep_ok cfg paths query hf
  have hkeys : query._fields.map Prod.fst = f0 :: rest.map Prod.fst := by
    rw [hfields]; rfl
  have hinc : includeLoop paths cfg.allowNonModelSelectionParameters
      (f0 :: rest.map Prod.fst) [] = Except.ok [] := by
    rw [hflag]
    exact includeLoop_all_unknown paths _ [] (hkeys ▸ hall)
  have hres : projStep cfg paths query =
      Except.ok (Query.mk query.conditions []) := by
    rw [projStep_include_eq cfg paths query f0 rest hfields, hinc]
  rw [restrictSelect, hfs]
  exact hres

theorem claim_c10_witness :
    restrictSelect (Config.mk false true) ["name", "email", "age"]
        (Query.mk [] [("ssn", 1), ("foo", 1)]) =
      Except.ok (Query.mk [] []) :=
  claim_c10_all_unknown_lenient_empty (Config.mk false true)
    ["name", "email", "age"] (Query.mk [] [("ssn", 1), ("foo", 1)]) "ssn"
    [("foo", 1)] rfl (by decide) rfl (Or.inr (by decide))

theorem excludeLoop_uniform_zero (pfm : List (String × Nat))
    (paths : List String) (huni : ∀ kv ∈ pfm, kv.2 = 0) (hpnd : paths.Nodup) :
    excludeLoop pfm paths [] =
      (paths.filter (fun a => !(decide (a ∈ pfm.map Prod.fst)))).map
        (fun p => (p, 1)) := by
  rw [excludeLoop_eq pfm paths [] hpnd (by simp), List.nil_append]
  congr 1
  apply List.filter_congr
  intro a _
  have h2 := lookup_uniform_zero pfm a huni
  simp only [decide_not]
  exact congrArg (fun b => !b) (decide_eq_decide.mpr h2)

/-- Claim C5: for a uniform exclusion projection, the consistency check
compares the included-field count with `paths.length` minus the number of
requested exclusions; the counts differ exactly when some excluded field is
not a schema path, in which case `UnknownSelectionField` is thrown unless
`allowNonModelSelectionParameters` is set; with the flag set the computed
included set is assigned regardless. -/
theorem claim_c5_exclusion_mismatch (cfg : Config) (paths : List String)
    (query : Query) (f0 : String) (v0 : Nat) (rest : List (String × Nat))
    (hfields : query._fields = (f0, v0) :: rest)
    (huni : ∀ kv ∈ query._fields, kv.2 = 0)
    (hknd : (query._fields.map Prod.fst).Nodup)
    (hpnd : paths.Nodup)
    (hf : cfg.allowNonModelQueryParameters = true ∨
      ∀ k ∈ query.conditions.map Prod.fst, k ∈ paths) :
    ((((excludeLoop query._fields paths []).length : Int) ≠
        (paths.length : Int) - ((query._fields.map Prod.fst).length : Int)) ↔
      ∃ k ∈ query._fields.map Prod.fst, k ∉ paths)
    ∧ ((((excludeLoop query._fields paths []).length : Int) ≠
        (paths.length : Int) - ((query._fields.map Prod.fst).length : Int)) →
      cfg.allowNonModelSelectionParameters = false →
      restrictSelect cfg paths query =
        Except.error (Err.UnknownSelectionField, query))
    ∧ (cfg.allowNonModelSelectionParameters = true →
      restrictSelect cfg paths query =
        Except.ok (Query.mk query.conditions
          (excludeLoop query._fields paths []))) := by
  have hfs := filterStep_ok cfg paths query hf
  have hv0 : v0 = 0 :=
    huni (f0, v0) (by rw [hfields]; exact List.mem_cons_self _ _)
  have hv1 : v0 ≠ 1 := by rw [hv0]; decide
  have hex := excludeLoop_uniform_zero query._fields paths huni hpnd
  refine ⟨?_, ?_, ?_⟩
  · rw [hex, List.length_map]
    exact exclusion_mismatch_iff paths (query._fields.map Prod.fst) hpnd hknd
  · intro hmis hflag
    rw [hfields] at hmis
    have hres : projStep cfg paths query =
        Except.error (Err.UnknownSelectionField, query) := by
      rw [projStep_exclude_eq cfg paths query f0 v0 rest hfields hv1,
        if_pos ⟨hmis, hflag⟩]
    rw [restrictSelect, hfs]
    exact hres
  · intro hflag
    have hres : projStep cfg paths query =
        Except.ok (Query.mk query.conditions
          (excludeLoop query._fields paths [])) := by
      rw [projStep_exclude_eq cfg paths query f0 v0 rest hfields hv1,
        if_neg (by rw [hflag]; simp), ← hfields]
    rw [restrictSelect, hfs]
    exact hres

theorem claim_c5_witness :
    restrictSelect (Config.mk false false) ["name", "email", "age"]
        (Query.mk [] [("age", 0), ("ssn", 0)]) =
      Except.error (Err.UnknownSelectionField,
        Query.mk [] [("age", 0), ("ssn", 0)]) :=
  (claim_c5_exclusion_mismatch (Config.mk false false) ["name", "email", "age"]
    (Query.mk [] [("age", 0), ("ssn", 0)]) "age" 0 [("ssn", 0)] rfl
    (by decide) (by decide) (by decide) (Or.inr (by decide))).2.1
    (by decide) rfl

/-- Claim C6: an exclusion projection naming only schema paths succeeds with
no error, its result has exactly `paths.length` minus the number of excluded
fields entries, and no excluded field appears in the result. -/
theorem claim_c6_known_exclusion (cfg : Config) (paths : List String)
    (query : Query) (f0 : String) (v0 : Nat) (rest : List (String × Nat))
    (hfields : query._fields = (f0, v0) :: rest)
    (huni : ∀ kv ∈ query._fields, kv.2 = 0)
    (hknd : (query._fields.map Prod.fst).Nodup)
    (hpnd : paths.Nodup)
    (hsub : ∀ k ∈ query._fields.map Prod.fst, k ∈ paths)
    (hf : cfg.allowNonModelQueryParameters = true ∨
      ∀ k ∈ query.conditions.map Prod.fst, k ∈ paths) :
    restrictSelect cfg paths query =
      Except.ok (Query.mk query.conditions (excludeLoop query._fields paths []))
    ∧ (excludeLoop query._fields paths []).length =
      paths.length - (query._fields.map Prod.fst).length
    ∧ ∀ k ∈ query._fields.map Prod.fst,
        k ∉ (excludeLoop query._fields paths []).map Prod.fst := by
  have hfs := filterStep_ok cfg paths query hf
  have hv0 : v0 = 0 :=
    huni (f0, v0) (by rw [hfields]; exact List.mem_cons_self _ _)
  have hv1 : v0 ≠ 1 := by rw [hv0]; decide
  have hex := excludeLoop_uniform_zero query._fields paths huni hpnd
  have hmis : ¬(((excludeLoop query._fields paths []).length : Int) ≠
      (paths.length : Int) - ((query._fields.map Prod.fst).length : Int)) := by
    rw [hex, List.length_map]
    intro hcon
    rcases (exclusion_mismatch_iff paths (query._fields.map Prod.fst) hpnd
      hknd).mp hcon with ⟨k, hk, hknot⟩
    exact hknot (hsub k hk)
  refine ⟨?_, ?_, ?_⟩
  · have hres : projStep cfg paths query =
        Except.ok (Query.mk query.conditions
          (excludeLoop query._fields paths [])) := by
      rw [hfields] at hmis
      rw [projStep_exclude_eq cfg paths query f0 v0 rest hfields hv1,
        if_neg (fun hc => hmis hc.1), ← hfields]
    rw [restrictSelect, hfs]
    exact hres
  · omega
  · intro k hk
    rw [hex]
    intro hcon
    rw [List.map_map] at hcon
    rcases List.mem_map.mp hcon with ⟨p, hpfilter, hpk⟩
    have hpk2 : p = k := hpk
    have hp2 : p ∉ query._fields.map Prod.fst :=
      by simpa using (List.mem_filter.mp hpfilter).2
    exact hp2 (hpk2 ▸ hk)

theorem claim_c6_witness :
    restrictSelect (Config.mk false false) ["name", "email", "age"]
        (Query.mk [] [("age", 0)]) =
      Except.ok (Query.mk [] [("name", 1), ("email", 1)]) ∧
    (excludeLoop [("age", 0)] ["name", "email", "age"] []).length = 2 ∧
    "age" ∉ (excludeLoop [("age", 0)] ["name", "email", "age"] []).map Prod.fst :=
  have h6 := claim_c6_known_exclusion (Config.mk false false)
    ["name", "email", "age"] (Query.mk [] [("age", 0)]) "age" 0 [] rfl
    (by decide) (by decide) (by decide) (by decide) (Or.inr (by decide))
  ⟨h6.1, h6.2.1, h6.2.2 "age" (by decide)⟩
